import Mathlib

/-!
# AS3935 lightning-sensor driver — verification development

A shallow embedding of the AS3935 Franklin lightning-sensor driver
(`LightningDetector.ino` example sketch plus the driver surface it calls),
with theorems about its event classification, interrupt handling,
configuration-register accesses and calibration sweep.

The poll-and-classify pass (`loop`), the distance interpretation and the
interrupt-edge handler (`AS3935Irq`) are embedded directly from the sketch.
The driver-internal operations (`calibrate`, field setters/getters) are not
part of the available sources, only their call sites are; they are modelled
from the specification, as marked on each such definition.
-/

namespace AS3935

/-- The device register values observed during one poll-and-classify pass:
the value returned by `AS3935.interruptSource()` and the value returned by
`AS3935.lightningDistanceKm()`. -/
structure DevRegs where
  intSource : Nat
  distance : Nat
deriving DecidableEq

/-- The messages the sketch prints during classification, one constructor per
`Serial.println` site inside the classification body of `loop`. -/
inductive Msg where
  | noiseFloorTooHigh
  | disturberDetected
  | stormOverhead
  | outOfRangeLightning
  | lightningKm (d : Nat)
deriving DecidableEq

/-- One observable step of a poll-and-classify pass: clearing the pending
flag (`AS3935IrqTriggered = 0`), the transport read of the interrupt-source
register, the transport read of the lightning-distance register, or a
printed message. -/
inductive Step where
  | clearFlag
  | readIntSource
  | readDistance
  | print (m : Msg)
deriving DecidableEq

/-- The messages produced for a stroke distance `d`, embedded from the three
independent `if` statements on `strokeDistance` in `loop`
(`== 1`, `== 63`, `< 63 && > 1`). -/
def strokeMsgs (d : Nat) : List Msg :=
  (if d = 1 then [Msg.stormOverhead] else []) ++
  (if d = 63 then [Msg.outOfRangeLightning] else []) ++
  (if d < 63 ∧ 1 < d then [Msg.lightningKm d] else [])

/-- The specification's `Lightning(distance)` event rendered as the sketch's
message: distance 1 is the overhead-storm sentinel, 63 the out-of-range
sentinel, anything else a kilometre estimate. -/
def Lightning (d : Nat) : Msg :=
  if d = 1 then Msg.stormOverhead
  else if d = 63 then Msg.outOfRangeLightning
  else Msg.lightningKm d

/-- One poll-and-classify pass, embedded from the body of `loop`:
if the pending flag (a C `int`, truthy iff nonzero) is set, the sketch first
clears the flag, then reads the interrupt-source register, then tests bits
0 (`0b0001`), 2 (`0b0100`) and 3 (`0b1000`) independently; a set bit 3
additionally reads the lightning-distance register and prints the distance
messages. The result is the ordered list of observable steps of the pass. -/
def loopPass (flag : Nat) (regs : DevRegs) : List Step :=
  if flag ≠ 0 then
    Step.clearFlag :: Step.readIntSource ::
      ((if regs.intSource &&& 1 ≠ 0 then [Step.print Msg.noiseFloorTooHigh] else []) ++
       (if regs.intSource &&& 4 ≠ 0 then [Step.print Msg.disturberDetected] else []) ++
       (if regs.intSource &&& 8 ≠ 0 then
          Step.readDistance :: (strokeMsgs regs.distance).map Step.print
        else []))
  else []

/-- The claim C2 states: in the step sequence of one pass, the flag-clearing
write never precedes the interrupt-source register read. -/
def clearNotBeforeRead (steps : List Step) : Prop :=
  ∀ i j, steps.get? i = some Step.clearFlag →
    steps.get? j = some Step.readIntSource → ¬ i < j

/-- The state touched by the interrupt-edge handler context: the pending
flag (`volatile int AS3935IrqTriggered`) and the log of SPI transport
transactions performed so far. -/
structure SysState where
  irqTriggered : Nat
  spiTransfers : List Nat
deriving DecidableEq

/-- The interrupt-edge handler, embedded from `AS3935Irq`: its body is the
single statement `AS3935IrqTriggered = 1;`. -/
def AS3935Irq (s : SysState) : SysState :=
  { s with irqTriggered := 1 }

/-- The classification steps other than the two leading ones never contain
the flag-clearing write. -/
theorem clearFlag_not_mem_tail (regs : DevRegs) :
    Step.clearFlag ∉
      ((if regs.intSource &&& 1 ≠ 0 then [Step.print Msg.noiseFloorTooHigh] else []) ++
       (if regs.intSource &&& 4 ≠ 0 then [Step.print Msg.disturberDetected] else []) ++
       (if regs.intSource &&& 8 ≠ 0 then
          Step.readDistance :: (strokeMsgs regs.distance).map Step.print
        else [])) := by
  intro h
  simp only [List.mem_append] at h
  rcases h with (h | h) | h
  · split at h <;> simp_all
  · split at h <;> simp_all
  · split at h <;> simp_all

/-- When the pending flag is set, the pass starts with the flag clear and the
interrupt-source read, in that order. -/
theorem loopPass_cons (flag : Nat) (regs : DevRegs) (h : flag ≠ 0) :
    loopPass flag regs = Step.clearFlag :: Step.readIntSource ::
      ((if regs.intSource &&& 1 ≠ 0 then [Step.print Msg.noiseFloorTooHigh] else []) ++
       (if regs.intSource &&& 4 ≠ 0 then [Step.print Msg.disturberDetected] else []) ++
       (if regs.intSource &&& 8 ≠ 0 then
          Step.readDistance :: (strokeMsgs regs.distance).map Step.print
        else [])) := by
  simp [loopPass, h]

/-- The flag-clearing write occurs exactly at position 0 of a pass whose
flag was set. -/
theorem clearFlag_position (flag : Nat) (regs : DevRegs) (h : flag ≠ 0) (i : Nat) :
    (loopPass flag regs).get? i = some Step.clearFlag ↔ i = 0 := by
  rw [loopPass_cons flag regs h]
  match i with
  | 0 => simp
  | 1 => simp
  | (n + 2) =>
    simp only [List.get?_cons_succ]
    constructor
    · intro hmem
      exact absurd (List.get?_mem hmem) (clearFlag_not_mem_tail regs)
    · omega

/-- For an in-range distance the specification's `Lightning d` message is
among the sketch's stroke-distance messages. -/
theorem Lightning_mem_strokeMsgs (d : Nat) (h1 : 1 ≤ d) (h2 : d ≤ 63) :
    Lightning d ∈ strokeMsgs d := by
  unfold Lightning strokeMsgs
  by_cases hd1 : d = 1
  · simp [hd1]
  · by_cases hd63 : d = 63
    · simp [hd63]
    · have hlt : d < 63 ∧ 1 < d := by omega
      simp [hd1, hd63, hlt]

/-- Claim C1: a poll-and-classify pass interprets the interrupt-source bits
independently: bit 0 set yields the noise-floor-too-high message, bit 2 set
yields the disturber-detected message, and bit 3 set additionally reads the
lightning-distance register and yields the `Lightning distance` message (for
a distance in the device's documented range 1..63); the interrupt-source
register is read in every pass. -/
theorem interrupt_bits_independent (flag : Nat) (regs : DevRegs) (h : flag ≠ 0) :
    (regs.intSource &&& 1 ≠ 0 →
      Step.print Msg.noiseFloorTooHigh ∈ loopPass flag regs) ∧
    (regs.intSource &&& 4 ≠ 0 →
      Step.print Msg.disturberDetected ∈ loopPass flag regs) ∧
    (regs.intSource &&& 8 ≠ 0 →
      Step.readDistance ∈ loopPass flag regs ∧
      (1 ≤ regs.distance → regs.distance ≤ 63 →
        Step.print (Lightning regs.distance) ∈ loopPass flag regs)) ∧
    Step.readIntSource ∈ loopPass flag regs := by
  rw [loopPass_cons flag regs h]
  refine ⟨fun h0 => ?_, fun h2 => ?_, fun h3 => ⟨?_, fun hd1 hd63 => ?_⟩, ?_⟩
  · refine List.mem_cons_of_mem _ (List.mem_cons_of_mem _
      (List.mem_append_left _ (List.mem_append_left _ ?_)))
    rw [if_pos h0]
    exact List.mem_singleton_self _
  · refine List.mem_cons_of_mem _ (List.mem_cons_of_mem _
      (List.mem_append_left _ (List.mem_append_right _ ?_)))
    rw [if_pos h2]
    exact List.mem_singleton_self _
  · refine List.mem_cons_of_mem _ (List.mem_cons_of_mem _ (List.mem_append_right _ ?_))
    rw [if_pos h3]
    exact List.mem_cons_self _ _
  · refine List.mem_cons_of_mem _ (List.mem_cons_of_mem _ (List.mem_append_right _ ?_))
    rw [if_pos h3]
    exact List.mem_cons_of_mem _
      (List.mem_map_of_mem Step.print (Lightning_mem_strokeMsgs regs.distance hd1 hd63))
  · exact List.mem_cons_of_mem _ (List.mem_cons_self _ _)

/-- Claim C1 witness: with the flag set, interrupt source `0b1101` and
distance 30, the pass surfaces all three outcomes and reads both
registers. -/
theorem interrupt_bits_independent_witness :
    Step.print Msg.noiseFloorTooHigh ∈ loopPass 1 ⟨13, 30⟩ ∧
    Step.print Msg.disturberDetected ∈ loopPass 1 ⟨13, 30⟩ ∧
    Step.readDistance ∈ loopPass 1 ⟨13, 30⟩ ∧
    Step.print (Lightning 30) ∈ loopPass 1 ⟨13, 30⟩ :=
  have h := interrupt_bits_independent 1 ⟨13, 30⟩ (by decide)
  ⟨h.1 (by decide), h.2.1 (by decide), (h.2.2.1 (by decide)).1,
    (h.2.2.1 (by decide)).2 (by decide) (by decide)⟩

/-- Claim C2, as stated, is false of the code: in the pass taken with the
flag set and interrupt source 0, the flag-clearing write (position 0)
precedes the interrupt-source register read (position 1). -/
theorem clear_after_read_counterexample :
    ¬ clearNotBeforeRead (loopPass 1 ⟨0, 0⟩) :=
  fun h => absurd Nat.zero_lt_one (h 0 1 rfl rfl)

/-- Claim C2, amended: in every poll-and-classify pass taken with the flag
set, the pending-signal flag is cleared first — the flag-clearing write is
step 0, the interrupt-source read is step 1, and the flag is cleared nowhere
else in the pass. -/
theorem clear_then_read (flag : Nat) (regs : DevRegs) (h : flag ≠ 0) :
    (loopPass flag regs).get? 0 = some Step.clearFlag ∧
    (loopPass flag regs).get? 1 = some Step.readIntSource ∧
    (∀ i, (loopPass flag regs).get? i = some Step.clearFlag → i = 0) := by
  refine ⟨?_, ?_, fun i hi => (clearFlag_position flag regs h i).mp hi⟩
  · rw [loopPass_cons flag regs h]
    rfl
  · rw [loopPass_cons flag regs h]
    rfl

/-- Claim C2 witness (for the amended statement): the concrete pass with the
flag set and interrupt source `0b0101`. -/
theorem clear_then_read_witness :
    (loopPass 1 ⟨5, 30⟩).get? 0 = some Step.clearFlag ∧
    (loopPass 1 ⟨5, 30⟩).get? 1 = some Step.readIntSource ∧
    (∀ i, (loopPass 1 ⟨5, 30⟩).get? i = some Step.clearFlag → i = 0) :=
  clear_then_read 1 ⟨5, 30⟩ (by decide)

/-- The flag-clearing write happens exactly once in a pass whose flag was
set. -/
theorem clearFlag_countP (flag : Nat) (regs : DevRegs) (h : flag ≠ 0) :
    (loopPass flag regs).countP (fun s => decide (s = Step.clearFlag)) = 1 := by
  rw [loopPass_cons flag regs h, List.countP_cons, List.countP_cons]
  have htail := clearFlag_not_mem_tail regs
  rw [List.countP_eq_zero.mpr ?_]
  · simp
  · intro a ha
    simp only [decide_eq_true_eq]
    intro hEq
    exact htail (hEq ▸ ha)

/-- Claim C3: with bits 0 and 2 both set, one pass surfaces both the
noise-floor-too-high and the disturber-detected messages, and the
pending-signal flag is cleared exactly once in that pass. -/
theorem multiple_bits_multiple_events (flag : Nat) (regs : DevRegs)
    (h : flag ≠ 0) (h0 : regs.intSource &&& 1 ≠ 0) (h2 : regs.intSource &&& 4 ≠ 0) :
    Step.print Msg.noiseFloorTooHigh ∈ loopPass flag regs ∧
    Step.print Msg.disturberDetected ∈ loopPass flag regs ∧
    (loopPass flag regs).countP (fun s => decide (s = Step.clearFlag)) = 1 := by
  refine ⟨?_, ?_, clearFlag_countP flag regs h⟩
  · rw [loopPass_cons flag regs h]
    refine List.mem_cons_of_mem _ (List.mem_cons_of_mem _
      (List.mem_append_left _ (List.mem_append_left _ ?_)))
    rw [if_pos h0]
    exact List.mem_singleton_self _
  · rw [loopPass_cons flag regs h]
    refine List.mem_cons_of_mem _ (List.mem_cons_of_mem _
      (List.mem_append_left _ (List.mem_append_right _ ?_)))
    rw [if_pos h2]
    exact List.mem_singleton_self _

/-- Claim C3 witness: the concrete pass with the flag set and interrupt
source `0b0101`. -/
theorem multiple_bits_multiple_events_witness :
    Step.print Msg.noiseFloorTooHigh ∈ loopPass 1 ⟨5, 0⟩ ∧
    Step.print Msg.disturberDetected ∈ loopPass 1 ⟨5, 0⟩ ∧
    (loopPass 1 ⟨5, 0⟩).countP (fun s => decide (s = Step.clearFlag)) = 1 :=
  multiple_bits_multiple_events 1 ⟨5, 0⟩ (by decide) (by decide) (by decide)

/-- Claim C4: with bit 3 set, the pass reads the distance register and emits
the stroke-distance messages; distance 1 yields exactly the overhead-storm
message `Lightning 1`, distance 63 exactly the out-of-range message
`Lightning 63`, and any distance strictly between yields exactly the
kilometre-estimate message `Lightning d`. -/
theorem distance_sentinels (flag d : Nat) (h : flag ≠ 0) :
    loopPass flag ⟨8, d⟩ =
      [Step.clearFlag, Step.readIntSource, Step.readDistance] ++
        (strokeMsgs d).map Step.print ∧
    strokeMsgs 1 = [Lightning 1] ∧ Lightning 1 = Msg.stormOverhead ∧
    strokeMsgs 63 = [Lightning 63] ∧ Lightning 63 = Msg.outOfRangeLightning ∧
    (1 < d → d < 63 →
      strokeMsgs d = [Lightning d] ∧ Lightning d = Msg.lightningKm d) := by
  refine ⟨?_, by decide, by decide, by decide, by decide, fun h1 h63 => ⟨?_, ?_⟩⟩
  · rw [loopPass_cons flag ⟨8, d⟩ h]
    dsimp only
    rw [if_neg (by decide : ¬ ((8 : Nat) &&& 1 ≠ 0)),
        if_neg (by decide : ¬ ((8 : Nat) &&& 4 ≠ 0)),
        if_pos (by decide : (8 : Nat) &&& 8 ≠ 0)]
    simp
  · have hd1 : d ≠ 1 := by omega
    have hd63 : d ≠ 63 := by omega
    simp [strokeMsgs, Lightning, hd1, hd63, h1, h63]
  · have hd1 : d ≠ 1 := by omega
    have hd63 : d ≠ 63 := by omega
    simp [Lightning, hd1, hd63]

/-- Claim C4 witness: distances 30 (estimate), 1 and 63 (sentinels) under a
set flag. -/
theorem distance_sentinels_witness :
    loopPass 1 ⟨8, 30⟩ =
      [Step.clearFlag, Step.readIntSource, Step.readDistance] ++
        (strokeMsgs 30).map Step.print ∧
    strokeMsgs 1 = [Lightning 1] ∧
    strokeMsgs 63 = [Lightning 63] ∧
    strokeMsgs 30 = [Lightning 30] :=
  have h := distance_sentinels 1 30 (by decide)
  ⟨h.1, h.2.1, h.2.2.2.1, (h.2.2.2.2.2 (by decide) (by decide)).1⟩

/-- Claim C9: the interrupt-edge handler's only effect is setting the
pending-signal flag to 1; the SPI transport log — and hence every transport
transaction count — is exactly that of the pre-handler state. -/
theorem irq_handler_only_sets_flag (s : SysState) :
    AS3935Irq s = { irqTriggered := 1, spiTransfers := s.spiTransfers } :=
  rfl

/-- Claim C10: when bits 0, 2 and 3 are all clear, a pass with the flag set
performs only the flag clear and the interrupt-source read: no message is
printed and the distance register is not read. -/
theorem no_bits_no_events (flag : Nat) (regs : DevRegs) (h : flag ≠ 0)
    (h0 : regs.intSource &&& 1 = 0) (h2 : regs.intSource &&& 4 = 0)
    (h3 : regs.intSource &&& 8 = 0) :
    loopPass flag regs = [Step.clearFlag, Step.readIntSource] := by
  rw [loopPass_cons flag regs h]
  simp [h0, h2, h3]

/-- Claim C10 witness: interrupt source with only bit 1 set. -/
theorem no_bits_no_events_witness :
    loopPass 1 ⟨2, 30⟩ = [Step.clearFlag, Step.readIntSource] :=
  no_bits_no_events 1 ⟨2, 30⟩ (by decide) (by decide) (by decide) (by decide)

/-- Modelled from the spec: the library's configuration accessors
(AS3935.cpp/.h are not under the available sources; only their call sites in
the sketch are). A Field Descriptor is a (bit-offset, bit-width) pair
describing a configuration value packed into a shared register byte. -/
structure FieldDesc where
  offset : Nat
  width : Nat
deriving DecidableEq

/-- All-ones mask of one register byte. -/
def byteOnes : Nat := 2 ^ 8 - 1

/-- The bit mask covering a field's span within its register byte. -/
def fieldMask (fd : FieldDesc) : Nat := (2 ^ fd.width - 1) <<< fd.offset

/-- Modelled from the spec: a configuration setter performs read-register,
mask-and-set the field bits, write-register; `setField` is the
mask-and-set on the register byte. -/
def setField (fd : FieldDesc) (reg v : Nat) : Nat :=
  (reg &&& (byteOnes ^^^ fieldMask fd)) ||| ((v % 2 ^ fd.width) <<< fd.offset)

/-- Modelled from the spec: a configuration getter performs read-register
then mask-and-shift extraction. -/
def getField (fd : FieldDesc) (reg : Nat) : Nat :=
  (reg >>> fd.offset) % 2 ^ fd.width

/-- Modelled from the spec: the indoor/outdoor mode field (AFE gain), a
5-bit field at offset 1 of its register. -/
def modeField : FieldDesc := ⟨1, 5⟩

/-- Modelled from the spec: the disturber-indication mask, a 1-bit field at
offset 5 of its register. -/
def disturberField : FieldDesc := ⟨5, 1⟩

/-- Modelled from the spec: the noise-floor level, a 3-bit field at offset 4
of its register (values 0..7). -/
def noiseFloorField : FieldDesc := ⟨4, 3⟩

/-- Modelled from the spec: the watchdog threshold, a 4-bit field at offset
0 of its register (documented values 0..10). -/
def watchdogField : FieldDesc := ⟨0, 4⟩

/-- Modelled from the spec: spike rejection, a 4-bit field at offset 0 of
its register (documented values 0..11). -/
def spikeRejField : FieldDesc := ⟨0, 4⟩

/-- The configuration fields named by the specification. -/
def configFields : List FieldDesc :=
  [modeField, disturberField, noiseFloorField, watchdogField, spikeRejField]

/-- Modelled from the spec: `setIndoors` writes the indoor AFE gain setting
through the mode field's read-modify-write. -/
def setIndoors (reg : Nat) : Nat := setField modeField reg 18

/-- Modelled from the spec: `setOutdoors` writes the outdoor AFE gain
setting through the mode field's read-modify-write. -/
def setOutdoors (reg : Nat) : Nat := setField modeField reg 14

/-- Modelled from the spec: `enableDisturbers` clears the disturber mask
bit through the disturber field's read-modify-write. -/
def enableDisturbers (reg : Nat) : Nat := setField disturberField reg 0

/-- Modelled from the spec: `disableDisturbers` sets the disturber mask bit
through the disturber field's read-modify-write. -/
def disableDisturbers (reg : Nat) : Nat := setField disturberField reg 1

/-- Inside the field's span, a written register byte holds the written
value's bits. -/
theorem testBit_setField_in (fd : FieldDesc) (reg v i : Nat)
    (h1 : fd.offset ≤ i) (h2 : i < fd.offset + fd.width)
    (h8 : fd.offset + fd.width ≤ 8) :
    (setField fd reg v).testBit i = (v % 2 ^ fd.width).testBit (i - fd.offset) := by
  have e1 : decide (i ≥ fd.offset) = true := decide_eq_true h1
  have e2 : decide (i - fd.offset < fd.width) = true := decide_eq_true (by omega)
  have e3 : decide (i < 8) = true := decide_eq_true (by omega)
  simp only [setField, fieldMask, byteOnes, Nat.testBit_lor, Nat.testBit_land,
    Nat.testBit_xor, Nat.testBit_shiftLeft, Nat.testBit_two_pow_sub_one,
    e1, e2, e3]
  simp

/-- Any natural below `2 ^ n` has no set bit at position `n` or above. -/
theorem testBit_eq_false_of_lt_pow {x n i : Nat} (h : x < 2 ^ n) (hni : n ≤ i) :
    x.testBit i = false :=
  Nat.testBit_lt_two_pow
    (lt_of_lt_of_le h (Nat.pow_le_pow_right (by norm_num) hni))

/-- Outside the field's span, a written register byte keeps the prior
register's bits. -/
theorem testBit_setField_out (fd : FieldDesc) (reg v i : Nat)
    (h8 : fd.offset + fd.width ≤ 8) (hreg : reg < 2 ^ 8)
    (hout : i < fd.offset ∨ fd.offset + fd.width ≤ i) :
    (setField fd reg v).testBit i = reg.testBit i := by
  by_cases hi8 : i < 8
  · have e3 : decide (i < 8) = true := decide_eq_true hi8
    rcases hout with hlt | hge
    · have e1 : decide (i ≥ fd.offset) = false := decide_eq_false (by omega)
      simp only [setField, fieldMask, byteOnes, Nat.testBit_lor, Nat.testBit_land,
        Nat.testBit_xor, Nat.testBit_shiftLeft, Nat.testBit_two_pow_sub_one,
        e1, e3]
      simp
    · have e1 : decide (i ≥ fd.offset) = true := decide_eq_true (by omega)
      have e2 : decide (i - fd.offset < fd.width) = false := decide_eq_false (by omega)
      have e4 : (v % 2 ^ fd.width).testBit (i - fd.offset) = false :=
        testBit_eq_false_of_lt_pow (Nat.mod_lt _ (Nat.pos_pow_of_pos _ (by norm_num)))
          (by omega)
      simp only [setField, fieldMask, byteOnes, Nat.testBit_lor, Nat.testBit_land,
        Nat.testBit_xor, Nat.testBit_shiftLeft, Nat.testBit_two_pow_sub_one,
        e1, e2, e3, e4]
      simp
  · have ereg : reg.testBit i = false := testBit_eq_false_of_lt_pow hreg (by omega)
    have e1 : decide (i ≥ fd.offset) = true := decide_eq_true (by omega)
    have e2 : decide (i - fd.offset < fd.width) = false := decide_eq_false (by omega)
    have e3 : decide (i < 8) = false := decide_eq_false hi8
    have e4 : (v % 2 ^ fd.width).testBit (i - fd.offset) = false :=
      testBit_eq_false_of_lt_pow (Nat.mod_lt _ (Nat.pos_pow_of_pos _ (by norm_num)))
        (by omega)
    simp only [setField, fieldMask, byteOnes, Nat.testBit_lor, Nat.testBit_land,
      Nat.testBit_xor, Nat.testBit_shiftLeft, Nat.testBit_two_pow_sub_one,
      e1, e2, e3, e4, ereg]
    simp

/-- Reading a field back from a freshly written register returns the
written in-range value. -/
theorem getField_setField (fd : FieldDesc) (reg v : Nat)
    (h8 : fd.offset + fd.width ≤ 8) (hv : v < 2 ^ fd.width) :
    getField fd (setField fd reg v) = v := by
  apply Nat.eq_of_testBit_eq
  intro j
  rw [getField, Nat.testBit_mod_two_pow, Nat.testBit_shiftRight]
  by_cases hj : j < fd.width
  · have e : decide (j < fd.width) = true := decide_eq_true hj
    rw [e, Bool.true_and,
      testBit_setField_in fd reg v (fd.offset + j) (by omega) (by omega) h8]
    have : fd.offset + j - fd.offset = j := by omega
    rw [this, Nat.testBit_mod_two_pow, e, Bool.true_and]
  · have e : decide (j < fd.width) = false := decide_eq_false hj
    rw [e, Bool.false_and]
    exact (testBit_eq_false_of_lt_pow hv (by omega)).symm

/-- Modelled from the spec: a getter outcome — either a decoded in-range
value or a `RegisterDecodeError` signalled to the caller. -/
inductive DecodeResult where
  | ok (v : Nat)
  | decodeError
deriving DecidableEq

/-- Modelled from the spec: a configuration getter reads the register,
extracts the field and reports a decode error when the value lies outside
its documented enumeration, never clamping it. -/
def getBounded (fd : FieldDesc) (maxVal reg : Nat) : DecodeResult :=
  if getField fd reg ≤ maxVal then DecodeResult.ok (getField fd reg)
  else DecodeResult.decodeError

/-- Modelled from the spec: `getNoiseFloor` decodes the 0..7 noise-floor
enumeration. -/
def getNoiseFloor (reg : Nat) : DecodeResult := getBounded noiseFloorField 7 reg

/-- Modelled from the spec: `getSpikeRejection` decodes the 0..11 spike
rejection enumeration. -/
def getSpikeRejection (reg : Nat) : DecodeResult := getBounded spikeRejField 11 reg

/-- Modelled from the spec: `getWatchdogThreshold` decodes the 0..10
watchdog-threshold enumeration. -/
def getWatchdogThreshold (reg : Nat) : DecodeResult := getBounded watchdogField 10 reg

/-- A bounded getter errors exactly on out-of-range extractions, and an ok
result is the unclamped in-range field value. -/
theorem getBounded_spec (fd : FieldDesc) (maxVal reg : Nat) :
    (maxVal < getField fd reg → getBounded fd maxVal reg = DecodeResult.decodeError) ∧
    (∀ v, getBounded fd maxVal reg = DecodeResult.ok v →
      v = getField fd reg ∧ v ≤ maxVal) := by
  unfold getBounded
  by_cases h : getField fd reg ≤ maxVal
  · rw [if_pos h]
    refine ⟨fun hc => absurd hc (by omega), fun v hv => ?_⟩
    injection hv with h'
    exact ⟨h'.symm, h' ▸ h⟩
  · rw [if_neg h]
    exact ⟨fun _ => rfl, fun v hv => DecodeResult.noConfusion hv⟩

/-- Claim C6: for every configuration field and every value in the field's
range, setting the field and reading it back on the same register byte
returns the value written. -/
theorem set_get_roundtrip (fd : FieldDesc) (hfd : fd ∈ configFields)
    (reg v : Nat) (hv : v < 2 ^ fd.width) :
    getField fd (setField fd reg v) = v := by
  have h8 : fd.offset + fd.width ≤ 8 := by
    fin_cases hfd <;> decide
  exact getField_setField fd reg v h8 hv

/-- Claim C6 witness: writing noise floor 5 over register byte 0xAB reads
back 5. -/
theorem set_get_roundtrip_witness :
    noiseFloorField ∈ configFields ∧
    getField noiseFloorField (setField noiseFloorField 171 5) = 5 :=
  ⟨by decide, set_get_roundtrip noiseFloorField (by decide) 171 5 (by decide)⟩

/-- Claim C7: every configuration setter is a read-modify-write on its
shared register byte — for every prior register byte, every bit outside the
written field's (offset, width) span is unchanged, both for the generic
field write and for the named setters. -/
theorem setters_preserve_siblings (reg v i : Nat) (hreg : reg < 2 ^ 8) :
    (∀ fd ∈ configFields, (i < fd.offset ∨ fd.offset + fd.width ≤ i) →
      (setField fd reg v).testBit i = reg.testBit i) ∧
    ((i < modeField.offset ∨ modeField.offset + modeField.width ≤ i) →
      (setIndoors reg).testBit i = reg.testBit i ∧
      (setOutdoors reg).testBit i = reg.testBit i) ∧
    ((i < disturberField.offset ∨ disturberField.offset + disturberField.width ≤ i) →
      (enableDisturbers reg).testBit i = reg.testBit i ∧
      (disableDisturbers reg).testBit i = reg.testBit i) := by
  refine ⟨fun fd hfd hout => ?_, fun hout => ⟨?_, ?_⟩, fun hout => ⟨?_, ?_⟩⟩
  · have h8 : fd.offset + fd.width ≤ 8 := by
      fin_cases hfd <;> decide
    exact testBit_setField_out fd reg v i h8 hreg hout
  · exact testBit_setField_out modeField reg 18 i (by decide) hreg hout
  · exact testBit_setField_out modeField reg 14 i (by decide) hreg hout
  · exact testBit_setField_out disturberField reg 0 i (by decide) hreg hout
  · exact testBit_setField_out disturberField reg 1 i (by decide) hreg hout

/-- Claim C7 witness: bit 0 of register byte 0xAA survives the mode and
disturber writes. -/
theorem setters_preserve_siblings_witness :
    (setField modeField 170 5).testBit 0 = (170 : Nat).testBit 0 ∧
    (setIndoors 170).testBit 0 = (170 : Nat).testBit 0 ∧
    (enableDisturbers 170).testBit 0 = (170 : Nat).testBit 0 :=
  have h := setters_preserve_siblings 170 5 0 (by decide)
  ⟨h.1 modeField (by decide) (by decide),
    (h.2.1 (by decide)).1, (h.2.2 (by decide)).1⟩

/-- Claim C8: each configuration getter reports a decode error exactly when
the extracted field value lies outside its documented enumeration (noise
floor 0..7, spike rejection 0..11, watchdog threshold 0..10), and an ok
result is always the unclamped in-range value. -/
theorem out_of_range_decode_error (reg : Nat) :
    (7 < getField noiseFloorField reg →
      getNoiseFloor reg = DecodeResult.decodeError) ∧
    (∀ v, getNoiseFloor reg = DecodeResult.ok v →
      v = getField noiseFloorField reg ∧ v ≤ 7) ∧
    (11 < getField spikeRejField reg →
      getSpikeRejection reg = DecodeResult.decodeError) ∧
    (∀ v, getSpikeRejection reg = DecodeResult.ok v →
      v = getField spikeRejField reg ∧ v ≤ 11) ∧
    (10 < getField watchdogField reg →
      getWatchdogThreshold reg = DecodeResult.decodeError) ∧
    (∀ v, getWatchdogThreshold reg = DecodeResult.ok v →
      v = getField watchdogField reg ∧ v ≤ 10) :=
  ⟨(getBounded_spec noiseFloorField 7 reg).1, (getBounded_spec noiseFloorField 7 reg).2,
    (getBounded_spec spikeRejField 11 reg).1, (getBounded_spec spikeRejField 11 reg).2,
    (getBounded_spec watchdogField 10 reg).1, (getBounded_spec watchdogField 10 reg).2⟩

/-- Claim C8 witness: a register byte whose spike-rejection field reads 12
decodes to an error; one whose noise-floor field reads 5 decodes ok to 5. -/
theorem out_of_range_decode_error_witness :
    getSpikeRejection 12 = DecodeResult.decodeError ∧
    (5 = getField noiseFloorField 80 ∧ 5 ≤ 7) :=
  ⟨(out_of_range_decode_error 12).2.2.1 (by decide),
    (out_of_range_decode_error 80).2.1 5 (by decide)⟩

/-- Modelled from the spec: one comparison step of the calibration sweep —
keep the candidate whose measured frequency deviation is smaller (the
earlier candidate wins ties, matching the ordered sweep). -/
def trimStep (dev : Nat → Nat) (b x : Nat) : Nat :=
  if dev x < dev b then x else b

/-- Modelled from the spec: the calibration sweep over the ordered
tank-circuit trim candidates, recording each candidate's measured deviation
`dev` and selecting the trim value with minimal deviation (`none` on an
empty candidate range). -/
def selectTrim (dev : Nat → Nat) : List Nat → Option Nat
  | [] => none
  | c :: cs => some (cs.foldl (trimStep dev) c)

/-- Modelled from the spec: `calibrate()` sweeps the trim candidates,
programs the best trim, and reports success to the caller exactly when some
candidate's deviation lies within the tolerance band `tol` (the sketch
treats a `false` return as `CalibrationOutOfTolerance`). -/
def calibrate (dev : Nat → Nat) (cands : List Nat) (tol : Nat) : Bool :=
  match selectTrim dev cands with
  | none => false
  | some b => decide (dev b ≤ tol)

/-- The sweep's fold returns one of the inspected candidates and minimises
the measured deviation among them. -/
theorem trimFold_spec (dev : Nat → Nat) (cs : List Nat) (c : Nat) :
    (cs.foldl (trimStep dev) c = c ∨ cs.foldl (trimStep dev) c ∈ cs) ∧
    dev (cs.foldl (trimStep dev) c) ≤ dev c ∧
    ∀ x ∈ cs, dev (cs.foldl (trimStep dev) c) ≤ dev x := by
  induction cs generalizing c with
  | nil => simp
  | cons a as ih =>
    simp only [List.foldl_cons]
    obtain ⟨hmem, hle, hall⟩ := ih (trimStep dev c a)
    have hca : dev (trimStep dev c a) ≤ dev c ∧ dev (trimStep dev c a) ≤ dev a := by
      unfold trimStep
      split <;> omega
    refine ⟨?_, le_trans hle hca.1, fun x hx => ?_⟩
    · rcases hmem with h | h
      · by_cases hd : dev a < dev c
        · have ht : trimStep dev c a = a := if_pos hd
          rw [ht] at h ⊢
          rw [h]
          exact Or.inr (List.mem_cons_self a as)
        · have ht : trimStep dev c a = c := if_neg hd
          rw [ht] at h ⊢
          exact Or.inl h
      · exact Or.inr (List.mem_cons_of_mem a h)
    · rcases List.mem_cons.mp hx with rfl | hx'
      · exact le_trans hle hca.2
      · exact hall x hx'

/-- Claim C5: over a nonempty ordered candidate range, the calibration
sweep selects a trim candidate of minimal measured deviation, and
`calibrate` reports failure (a `false`, CalibrationOutOfTolerance result)
exactly when no candidate's deviation lies within the tolerance band. -/
theorem calibrate_min_deviation (dev : Nat → Nat) (cands : List Nat)
    (tol : Nat) (h : cands ≠ []) :
    ∃ b, selectTrim dev cands = some b ∧ b ∈ cands ∧
      (∀ c ∈ cands, dev b ≤ dev c) ∧
      (calibrate dev cands tol = false ↔ ∀ c ∈ cands, tol < dev c) := by
  match cands, h with
  | c :: cs, _ =>
    obtain ⟨hmem, hle, hall⟩ := trimFold_spec dev cs c
    have hbmem : cs.foldl (trimStep dev) c ∈ c :: cs := by
      rcases hmem with h' | h'
      · rw [h']
        exact List.mem_cons_self c cs
      · exact List.mem_cons_of_mem c h'
    have hmin : ∀ x ∈ c :: cs, dev (cs.foldl (trimStep dev) c) ≤ dev x := by
      intro x hx
      rcases List.mem_cons.mp hx with rfl | hx'
      · exact hle
      · exact hall x hx'
    refine ⟨cs.foldl (trimStep dev) c, rfl, hbmem, hmin, ?_⟩
    constructor
    · intro hfalse x hx
      have hnb : ¬ dev (cs.foldl (trimStep dev) c) ≤ tol := by
        intro hb
        simp [calibrate, selectTrim, hb] at hfalse
      exact lt_of_lt_of_le (by omega) (hmin x hx)
    · intro hallgt
      have hb : tol < dev (cs.foldl (trimStep dev) c) := hallgt _ hbmem
      simp [calibrate, selectTrim]
      omega

/-- Claim C5 witness: a synthetic deviation curve `n ↦ 7 - n` over the
candidates 0..3 selects trim 3 (deviation 4) and, with tolerance 1, reports
CalibrationOutOfTolerance since every candidate exceeds the band. -/
theorem calibrate_min_deviation_witness :
    ∃ b, selectTrim (fun n => 7 - n) [0, 1, 2, 3] = some b ∧
      b ∈ [0, 1, 2, 3] ∧
      (∀ c ∈ [0, 1, 2, 3], (fun n => 7 - n) b ≤ (fun n => 7 - n) c) ∧
      (calibrate (fun n => 7 - n) [0, 1, 2, 3] 1 = false ↔
        ∀ c ∈ [0, 1, 2, 3], 1 < (fun n => 7 - n) c) :=
  calibrate_min_deviation (fun n => 7 - n) [0, 1, 2, 3] 1 (by decide)

end AS3935
